import Mathlib

/-!
Shallow embedding of the WebRTC signaling server in `src/app/main.py`.

The server keeps three in-memory dictionaries: `active_rooms` (room id to
`CallRoom`), `websocket_connections` (user id to transport), and `user_rooms`
(user id to room id).  Dictionaries are modelled as association lists in
insertion order, matching Python `dict` semantics: overwriting a key keeps its
position, deleting removes the key.  The transport value of a connection is
irrelevant to the registry logic, so `websocket_connections` is modelled as the
list of registered user ids.  Message delivery is modelled as the list of
`(recipient, message)` pairs pushed to registered transports, in program order.
Handlers that can raise a Python exception return `Except Unit`, with
`Except.error ()` standing for the raised exception.
-/

/-- Outbound frames pushed to clients (the `json.dumps` payloads built in the
source).  The opaque `data` payload of signaling messages is modelled as an
optional string, matching the untouched result of `message_data.get("data")`. -/
inductive Msg where
  | userJoined (user_id : String) (participants : List String)
  | roomJoined (room_id : String) (participants : List String)
  | userLeft (user_id : String) (participants : List String)
  | roomClosed
  | signal (ty : String) (data : Option String) (from_user : String)
deriving DecidableEq

/-- One inbound websocket frame as seen by the receive loop of
`websocket_endpoint`: either text on which `json.loads` (or the subsequent
`.get` attribute access) raises, or a parsed JSON object with optional
`type`, `room_id` and `data` fields (`dict.get` returns `None` when absent). -/
inductive Frame where
  | malformed
  | obj (ty : Option String) (room_id : Option String) (data : Option String)
deriving DecidableEq

/-- The `CallRoom` pydantic model: room id, creation time (abstracted to a
logical clock tick), participants in insertion order. -/
structure CallRoom where
  room_id : String
  created_at : Nat
  participants : List String
deriving DecidableEq

/-- The module-level registry state of `main.py`: `active_rooms`,
`websocket_connections` (just the registered user ids), `user_rooms`, and a
logical clock standing in for `datetime.now()`. -/
structure ServerState where
  active_rooms : List (String × CallRoom)
  websocket_connections : List String
  user_rooms : List (String × String)
  clock : Nat
deriving DecidableEq

/-- Outcome of a REST endpoint call: HTTP success, 404 `HTTPException`, or an
uncaught exception (HTTP 500). -/
inductive RestResult where
  | ok
  | notFound
  | serverError
deriving DecidableEq

/-- Python `d[k]`-style lookup on an association list (`k in d` is
`(dictGet d k).isSome`). -/
def dictGet {α : Type} (d : List (String × α)) (k : String) : Option α :=
  match d with
  | [] => none
  | (k', v) :: rest => if k' = k then some v else dictGet rest k

/-- Python `d[k] = v`: overwrite in place if the key exists, else append. -/
def dictSet {α : Type} (d : List (String × α)) (k : String) (v : α) :
    List (String × α) :=
  match d with
  | [] => [(k, v)]
  | (k', v') :: rest =>
      if k' = k then (k, v) :: rest else (k', v') :: dictSet rest k v

/-- Python `del d[k]`. -/
def dictDel {α : Type} (d : List (String × α)) (k : String) :
    List (String × α) :=
  d.filter (fun p => p.1 ≠ k)

/-- `broadcast_to_room` (main.py lines 122-135): if the room exists, push the
message to every participant other than `exclude_user` that has a registered
connection; a send to a registered transport is modelled as succeeding. -/
def broadcast_to_room (st : ServerState) (room_id : String) (message : Msg)
    (exclude_user : Option String) : List (String × Msg) :=
  match dictGet st.active_rooms room_id with
  | none => []
  | some room =>
      (room.participants.filter
        (fun p => decide (some p ≠ exclude_user ∧ p ∈ st.websocket_connections))).map
        (fun p => (p, message))

/-- `join_room` (main.py lines 85-119).  A missing `room_id`
(`message_data.get("room_id")` returned `None`) reaches
`CallRoom(room_id=None, ...)`, which raises a pydantic validation error,
modelled as `Except.error ()`; the registries are untouched in that case.
Otherwise the room is created if absent, and on a genuine new join the user is
appended, the membership map is overwritten, `user-joined` is broadcast to the
others, and `room-joined` is sent to the joiner if it has a registered
connection. -/
def join_room (st : ServerState) (user_id : String) (room_id : Option String) :
    Except Unit (ServerState × List (String × Msg)) :=
  match room_id with
  | none => Except.error ()
  | some rid =>
      let ensured :
          ServerState × CallRoom :=
        match dictGet st.active_rooms rid with
        | some room => (st, room)
        | none =>
            let room : CallRoom := ⟨rid, st.clock, []⟩
            ({ st with
                active_rooms := dictSet st.active_rooms rid room,
                clock := st.clock + 1 }, room)
      let st1 := ensured.1
      let room := ensured.2
      if user_id ∈ room.participants then
        Except.ok (st1, [])
      else
        let newParts := room.participants ++ [user_id]
        let st2 : ServerState :=
          { st1 with
              active_rooms :=
                dictSet st1.active_rooms rid { room with participants := newParts },
              user_rooms := dictSet st1.user_rooms user_id rid }
        let bmsgs :=
          broadcast_to_room st2 rid (Msg.userJoined user_id newParts) (some user_id)
        let direct :=
          if user_id ∈ st2.websocket_connections then
            [(user_id, Msg.roomJoined rid newParts)]
          else []
        Except.ok (st2, bmsgs ++ direct)

/-- `cleanup_user` (main.py lines 138-167): drop the connection entry, then —
only when the membership map holds a *truthy* room id (`if room_id and
room_id in active_rooms`, so the empty string is skipped) naming an existing
room that lists the user — remove the user from that room, broadcast
`user-left` with the shrunken list, delete the room if it became empty; finally
drop the membership entry. -/
def cleanup_user (st : ServerState) (user_id : String) :
    ServerState × List (String × Msg) :=
  let st1 : ServerState :=
    { st with
        websocket_connections :=
          st.websocket_connections.filter (fun u => u ≠ user_id) }
  match dictGet st1.user_rooms user_id with
  | none => (st1, [])
  | some rid =>
      if rid = "" then
        ({ st1 with user_rooms := dictDel st1.user_rooms user_id }, [])
      else
        match dictGet st1.active_rooms rid with
        | none => ({ st1 with user_rooms := dictDel st1.user_rooms user_id }, [])
        | some room =>
            if user_id ∈ room.participants then
              let newParts := room.participants.erase user_id
              let st2 : ServerState :=
                { st1 with
                    active_rooms :=
                      dictSet st1.active_rooms rid { room with participants := newParts } }
              let msgs := broadcast_to_room st2 rid (Msg.userLeft user_id newParts) none
              let st3 : ServerState :=
                if newParts = [] then
                  { st2 with active_rooms := dictDel st2.active_rooms rid }
                else st2
              ({ st3 with user_rooms := dictDel st3.user_rooms user_id }, msgs)
            else
              ({ st1 with user_rooms := dictDel st1.user_rooms user_id }, [])

/-- `handle_signaling_message` (main.py lines 62-82): dispatch on the optional
`type` field.  `join-room` delegates to `join_room`; the three WebRTC types
forward the payload when `user_rooms.get(user_id)` is truthy (`if room_id and
room_id in active_rooms` — a falsy empty-string id is dropped) and names an
existing room; anything else, including a missing type, is a no-op. -/
def handle_signaling_message (st : ServerState) (user_id : String)
    (ty : Option String) (room_id : Option String) (data : Option String) :
    Except Unit (ServerState × List (String × Msg)) :=
  match ty with
  | none => Except.ok (st, [])
  | some t =>
      if t = "join-room" then
        join_room st user_id room_id
      else if t = "offer" ∨ t = "answer" ∨ t = "ice-candidate" then
        match dictGet st.user_rooms user_id with
        | none => Except.ok (st, [])
        | some rid =>
            if rid ≠ "" ∧ (dictGet st.active_rooms rid).isSome then
              Except.ok
                (st, broadcast_to_room st rid (Msg.signal t data user_id) (some user_id))
            else Except.ok (st, [])
      else Except.ok (st, [])

/-- One iteration of the receive loop in `websocket_endpoint` (main.py lines
46-59): a frame that raises (unparseable text, or an exception escaping
`handle_signaling_message`, such as the missing-`room_id` validation error)
lands in the `except` clauses, which run `cleanup_user`. -/
def ws_step (st : ServerState) (user_id : String) (f : Frame) :
    ServerState × List (String × Msg) :=
  match f with
  | Frame.malformed => cleanup_user st user_id
  | Frame.obj ty rid data =>
      match handle_signaling_message st user_id ty rid data with
      | Except.ok r => r
      | Except.error _ => cleanup_user st user_id

/-- Connection acceptance in `websocket_endpoint` (main.py lines 41-42):
`websocket_connections[user_id] = websocket` registers the user (an overwrite
keeps the key set unchanged). -/
def ws_connect (st : ServerState) (user_id : String) : ServerState :=
  { st with
      websocket_connections :=
        if user_id ∈ st.websocket_connections then st.websocket_connections
        else st.websocket_connections ++ [user_id] }

/-- `create_room` (main.py lines 171-178); the fresh `uuid4` identifier is
supplied as an argument.  Returns the new state and the response payload. -/
def create_room (st : ServerState) (room_id : String) :
    ServerState × String × Nat :=
  ({ st with
      active_rooms := dictSet st.active_rooms room_id ⟨room_id, st.clock, []⟩,
      clock := st.clock + 1 }, room_id, st.clock)

/-- `get_room` (main.py lines 181-193): the response payload, or `none` for
the 404 not-found case. -/
def get_room (st : ServerState) (room_id : String) :
    Option (String × Nat × List String × Nat) :=
  (dictGet st.active_rooms room_id).map
    (fun room => (room.room_id, room.created_at, room.participants,
      room.participants.length))

/-- `delete_room` (main.py lines 209-224): on a present room, broadcast
`room-closed` to everyone, run `cleanup_user` on a snapshot
(`room.participants.copy()`) of the participants, then execute the final
`del active_rooms[room_id]`.  If the last cleanup already deleted the room,
that `del` raises `KeyError`, modelled as `RestResult.serverError` with the
mutations so far kept. -/
def delete_room (st : ServerState) (room_id : String) :
    ServerState × List (String × Msg) × RestResult :=
  match dictGet st.active_rooms room_id with
  | none => (st, [], RestResult.notFound)
  | some room =>
      let closedMsgs := broadcast_to_room st room_id Msg.roomClosed none
      let cleaned :=
        room.participants.foldl
          (fun acc p =>
            let r := cleanup_user acc.1 p
            (r.1, acc.2 ++ r.2))
          (st, ([] : List (String × Msg)))
      if (dictGet cleaned.1.active_rooms room_id).isSome then
        ({ cleaned.1 with active_rooms := dictDel cleaned.1.active_rooms room_id },
          closedMsgs ++ cleaned.2, RestResult.ok)
      else
        (cleaned.1, closedMsgs ++ cleaned.2, RestResult.serverError)

/-- External events driving the registries: a websocket handshake completing,
an inbound frame on a live socket, a transport disconnect (which runs
`cleanup_user`), and the two mutating REST endpoints. -/
inductive Event where
  | connect (user : String)
  | frame (user : String) (f : Frame)
  | disconnect (user : String)
  | createRoom (room_id : String)
  | deleteRoom (room_id : String)
deriving DecidableEq

/-- Effect of one event on the registries, with the frames it delivered. -/
def applyEvent (st : ServerState) (e : Event) : ServerState × List (String × Msg) :=
  match e with
  | Event.connect u => (ws_connect st u, [])
  | Event.frame u f => ws_step st u f
  | Event.disconnect u => cleanup_user st u
  | Event.createRoom rid => ((create_room st rid).1, [])
  | Event.deleteRoom rid =>
      let d := delete_room st rid
      (d.1, d.2.1)

/-- The empty registries at process start. -/
def initState : ServerState := ⟨[], [], [], 0⟩

/-- State transition of one event. -/
def stepE (st : ServerState) (e : Event) : ServerState :=
  (applyEvent st e).1

/-- Registry state after a sequence of events from process start. -/
def run (evs : List Event) : ServerState :=
  evs.foldl stepE initState

/-- A convenient `join-room` frame. -/
def joinF (rid : String) : Frame :=
  Frame.obj (some "join-room") (some rid) none

/-- A convenient `offer` frame. -/
def offerF (d : String) : Frame :=
  Frame.obj (some "offer") none (some d)

/-- Does the rooms dictionary currently hold room `r` with an empty
participant list? -/
def emptyHere (rooms : List (String × CallRoom)) (r : String) : Bool :=
  match dictGet rooms r with
  | some room => room.participants.isEmpty
  | none => false

/-- A transition from rooms dictionary `d` to `d'` creates no room record
that is present with an empty participant list, other than those already so
present. -/
def noNewEmpty (d d' : List (String × CallRoom)) : Prop :=
  ∀ r, emptyHere d' r = true → emptyHere d r = true

/-- Every room present with an empty participant list is an explicitly
created, never-since-joined room (tracked in the instrumented component). -/
def pristineInv (p : ServerState × List String) : Prop :=
  ∀ r, emptyHere p.1.active_rooms r = true → r ∈ p.2

/-- Instrumented transition: alongside the state it tracks the rooms that were
explicitly created by the REST creation endpoint and are still present with no
participant ("created but not yet joined"). -/
def stepG (acc : ServerState × List String) (e : Event) :
    ServerState × List String :=
  let st' := (applyEvent acc.1 e).1
  let created :=
    match e with
    | Event.createRoom rid => rid :: acc.2
    | _ => acc.2
  (st', created.filter (fun r => emptyHere st'.active_rooms r))

/-- Instrumented run from process start: final state plus the set of
explicitly-created, never-joined rooms. -/
def runG (evs : List Event) : ServerState × List String :=
  evs.foldl stepG (initState, [])

/-! ### Association-list lemmas -/

theorem dictGet_dictSet {α : Type} (d : List (String × α)) (k k' : String) (v : α) :
    dictGet (dictSet d k v) k' = if k = k' then some v else dictGet d k' := by
  induction d with
  | nil => simp [dictGet, dictSet]
  | cons hd tl ih =>
      obtain ⟨k₀, v₀⟩ := hd
      simp only [dictSet]
      by_cases h : k₀ = k
      · subst h
        simp only [if_pos rfl, dictGet]
        by_cases h' : k₀ = k' <;> simp [h']
      · simp only [if_neg h, dictGet, ih]
        by_cases h' : k₀ = k'
        · subst h'
          have hkk : ¬k = k₀ := fun hk => h hk.symm
          simp [hkk]
        · simp [h']

theorem dictGet_dictDel {α : Type} (d : List (String × α)) (k k' : String) :
    dictGet (dictDel d k) k' = if k = k' then none else dictGet d k' := by
  induction d with
  | nil => simp [dictGet, dictDel]
  | cons hd tl ih =>
      obtain ⟨k₀, v₀⟩ := hd
      by_cases h : k₀ = k
      · subst h
        have hstep : dictDel ((k₀, v₀) :: tl) k₀ = dictDel tl k₀ := by
          simp [dictDel]
        rw [hstep, ih]
        by_cases h' : k₀ = k' <;> simp [dictGet, h']
      · have hstep : dictDel ((k₀, v₀) :: tl) k = (k₀, v₀) :: dictDel tl k := by
          simp [dictDel, h]
        rw [hstep]
        simp only [dictGet, ih]
        by_cases h' : k₀ = k'
        · subst h'
          have hkk : ¬k = k₀ := fun hk => h hk.symm
          simp [hkk]
        · simp [h']

/-! ### Broadcast lemmas -/

theorem broadcast_to_room_absent (st : ServerState) (rid : String) (m : Msg)
    (exc : Option String) (h : dictGet st.active_rooms rid = none) :
    broadcast_to_room st rid m exc = [] := by
  simp [broadcast_to_room, h]

theorem broadcast_to_room_present (st : ServerState) (rid : String) (m : Msg)
    (exc : Option String) (room : CallRoom)
    (h : dictGet st.active_rooms rid = some room) :
    broadcast_to_room st rid m exc =
      (room.participants.filter
        (fun p => decide (some p ≠ exc ∧ p ∈ st.websocket_connections))).map
        (fun p => (p, m)) := by
  simp [broadcast_to_room, h]

/-- Anything delivered by a broadcast is the broadcast message, goes to a
connected room participant, and never to the excluded user. -/
theorem broadcast_mem (st : ServerState) (rid : String) (m : Msg)
    (exc : Option String) (p : String) (mm : Msg)
    (h : (p, mm) ∈ broadcast_to_room st rid m exc) :
    mm = m ∧ some p ≠ exc ∧ p ∈ st.websocket_connections ∧
      ∃ room, dictGet st.active_rooms rid = some room ∧ p ∈ room.participants := by
  unfold broadcast_to_room at h
  cases hg : dictGet st.active_rooms rid with
  | none => rw [hg] at h; simp at h
  | some room =>
      rw [hg] at h
      simp only [List.mem_map, List.mem_filter, decide_eq_true_eq] at h
      obtain ⟨q, ⟨hq, hne, hc⟩, heq⟩ := h
      have hq1 : q = p := congrArg Prod.fst heq
      have hm : mm = m := (congrArg Prod.snd heq).symm
      subst hq1
      exact ⟨hm, hne, hc, room, rfl, hq⟩

/-- Counting a tagged pair in a tagged list counts the underlying element. -/
theorem count_map_pair (m : Msg) (l : List String) (p : String) :
    (l.map (fun q => (q, m))).count (p, m) = l.count p := by
  induction l with
  | nil => simp
  | cons a t ih =>
      simp only [List.map_cons, List.count_cons, ih]
      by_cases h : a = p
      · subst h; simp
      · simp [h]

/-! ### Claim C1 -/

/-- Claim C1, as stated, is false: after the trace "A connects, A joins r1,
A joins r2, A disconnects", `cleanup_user` (run by the disconnect) has removed
A's connection and membership entries, yet A is still listed as a participant
of room r1 — the stale entry left by the second join is never cleaned. -/
theorem cleanup_user_counterexample :
    dictGet (run [Event.connect "A", Event.frame "A" (joinF "r1"),
        Event.frame "A" (joinF "r2"), Event.disconnect "A"]).active_rooms "r1" =
      some ⟨"r1", 0, ["A"]⟩ ∧
    "A" ∈ (["A"] : List String) ∧
    (run [Event.connect "A", Event.frame "A" (joinF "r1"),
        Event.frame "A" (joinF "r2"),
        Event.disconnect "A"]).websocket_connections = [] ∧
    (run [Event.connect "A", Event.frame "A" (joinF "r1"),
        Event.frame "A" (joinF "r2"), Event.disconnect "A"]).user_rooms = [] := by
  exact ⟨rfl, by decide, rfl, rfl⟩

/-- Claim C1 (amended): after `cleanup_user user` completes, the user is
absent from the connections map and from the membership map, and absent from
the participant list of the room its membership entry named at call time
(provided that id is non-empty, since `if room_id and ...` skips a falsy id);
stale participant entries in other rooms may survive. -/
theorem cleanup_user_removes_current (st : ServerState) (u rid : String)
    (room₀ : CallRoom)
    (hm : dictGet st.user_rooms u = some rid) (hne : rid ≠ "")
    (hr : dictGet st.active_rooms rid = some room₀)
    (hnd : room₀.participants.Nodup) :
    u ∉ (cleanup_user st u).1.websocket_connections ∧
    dictGet (cleanup_user st u).1.user_rooms u = none ∧
    ∀ room', dictGet (cleanup_user st u).1.active_rooms rid = some room' →
      u ∉ room'.participants := by
  by_cases hu : u ∈ room₀.participants
  · by_cases hemp : room₀.participants.erase u = []
    · simp only [cleanup_user, hm, hne, hr, hu, hemp]
      simp only [if_neg hne, if_pos hu, if_true, ite_true, if_pos hemp]
      refine ⟨by simp [List.mem_filter], by simp [dictGet_dictDel], ?_⟩
      intro room' hroom'
      simp [dictGet_dictDel] at hroom'
    · simp only [cleanup_user, hm, hne, hr, hu, hemp]
      simp only [if_neg hne, if_pos hu, if_neg hemp, ite_true, ite_false]
      refine ⟨by simp [List.mem_filter], by simp [dictGet_dictDel], ?_⟩
      intro room' hroom'
      simp only [dictGet_dictSet, if_true, eq_self_iff_true, ite_true,
        Option.some.injEq] at hroom'
      subst hroom'
      simpa using hnd.not_mem_erase
  · simp only [cleanup_user, hm, hne, hr, hu]
    simp only [if_neg hne, if_neg hu, ite_false]
    refine ⟨by simp [List.mem_filter], by simp [dictGet_dictDel], ?_⟩
    intro room' hroom'
    rw [hr] at hroom'
    cases hroom'
    exact hu

/-- Witness for `cleanup_user_removes_current`: a one-room state where user A
is connected and a member of room r; after cleanup A is gone from all three
registries. -/
theorem cleanup_user_removes_current_witness :
    "A" ∉ (cleanup_user ⟨[("r", ⟨"r", 0, ["A"]⟩)], ["A"], [("A", "r")], 1⟩
        "A").1.websocket_connections ∧
    dictGet (cleanup_user ⟨[("r", ⟨"r", 0, ["A"]⟩)], ["A"], [("A", "r")], 1⟩
        "A").1.user_rooms "A" = none := by
  have h := cleanup_user_removes_current
    ⟨[("r", ⟨"r", 0, ["A"]⟩)], ["A"], [("A", "r")], 1⟩ "A" "r" ⟨"r", 0, ["A"]⟩
    (by decide) (by decide) (by decide) (by decide)
  exact ⟨h.1, h.2.1⟩

/-! ### Claim C2 -/

/-- Claim C2, as stated, is false: in the reachable state where A joined r1,
B joined r1, then A joined r2 and disconnected, room r1 still lists A as a
participant, yet a broadcast to r1 with no excluded user delivers only to B —
A is a non-excluded participant that receives nothing (its connection entry is
gone). -/
theorem broadcast_to_room_counterexample :
    dictGet (run [Event.connect "A", Event.connect "B",
        Event.frame "A" (joinF "r1"), Event.frame "B" (joinF "r1"),
        Event.frame "A" (joinF "r2"), Event.disconnect "A"]).active_rooms "r1" =
      some ⟨"r1", 0, ["A", "B"]⟩ ∧
    broadcast_to_room (run [Event.connect "A", Event.connect "B",
        Event.frame "A" (joinF "r1"), Event.frame "B" (joinF "r1"),
        Event.frame "A" (joinF "r2"), Event.disconnect "A"]) "r1"
        Msg.roomClosed none = [("B", Msg.roomClosed)] := by
  exact ⟨rfl, rfl⟩

/-- Claim C2 (amended): `broadcast_to_room` never delivers to the excluded
user, and delivers the message exactly once to every other room participant
that currently has an entry in the connections map (participants with no
connection entry are skipped). -/
theorem broadcast_to_room_exact (st : ServerState) (rid : String) (m : Msg)
    (exc : Option String) (room : CallRoom)
    (hroom : dictGet st.active_rooms rid = some room)
    (hnd : room.participants.Nodup) :
    (∀ e, exc = some e → ∀ mm, (e, mm) ∉ broadcast_to_room st rid m exc) ∧
    (∀ p, p ∈ room.participants → some p ≠ exc →
      p ∈ st.websocket_connections →
      (broadcast_to_room st rid m exc).count (p, m) = 1) := by
  constructor
  · intro e he mm hmem
    obtain ⟨_, hne, _, _⟩ := broadcast_mem st rid m exc e mm hmem
    exact hne he.symm
  · intro p hp hne hc
    rw [broadcast_to_room_present st rid m exc room hroom, count_map_pair]
    refine List.count_eq_one_of_mem (hnd.filter _) ?_
    simp only [List.mem_filter, decide_eq_true_eq]
    exact ⟨hp, hne, hc⟩

/-- Witness for `broadcast_to_room_exact`: room r holds connected users A and
B; broadcasting with A excluded delivers to B exactly once and to A never. -/
theorem broadcast_to_room_exact_witness :
    (("A", Msg.roomClosed) ∉
      broadcast_to_room ⟨[("r", ⟨"r", 0, ["A", "B"]⟩)], ["A", "B"],
        [("A", "r"), ("B", "r")], 1⟩ "r" Msg.roomClosed (some "A")) ∧
    (broadcast_to_room ⟨[("r", ⟨"r", 0, ["A", "B"]⟩)], ["A", "B"],
        [("A", "r"), ("B", "r")], 1⟩ "r" Msg.roomClosed
        (some "A")).count ("B", Msg.roomClosed) = 1 := by
  have h := broadcast_to_room_exact
    ⟨[("r", ⟨"r", 0, ["A", "B"]⟩)], ["A", "B"], [("A", "r"), ("B", "r")], 1⟩
    "r" Msg.roomClosed (some "A") ⟨"r", 0, ["A", "B"]⟩ (by decide) (by decide)
  exact ⟨h.1 "A" rfl Msg.roomClosed, h.2 "B" (by decide) (by decide) (by decide)⟩

/-- Claim C3: the code is wrong.  With room r populated by connected users A
and B (both currently mapped to r), `delete_room r` broadcasts `room-closed`
to both and cleans both up, but the last cleanup already deletes the now-empty
room, so the endpoint's final `del active_rooms[room_id]` raises `KeyError`
(HTTP 500) instead of returning success.  The room does end up absent. -/
theorem delete_room_keyerror :
    delete_room (run [Event.connect "A", Event.connect "B",
        Event.frame "A" (joinF "r"), Event.frame "B" (joinF "r")]) "r" =
      (⟨[], [], [], 1⟩,
        [("A", Msg.roomClosed), ("B", Msg.roomClosed),
          ("B", Msg.userLeft "A" ["B"])], RestResult.serverError) ∧
    get_room (delete_room (run [Event.connect "A", Event.connect "B",
        Event.frame "A" (joinF "r"), Event.frame "B" (joinF "r")]) "r").1 "r" =
      none := by
  exact ⟨rfl, rfl⟩

/-- A join of a room the user already belongs to is a complete no-op: no
registry changes, no messages. -/
theorem join_room_mem_noop (st : ServerState) (u rid : String)
    (room : CallRoom) (hroom : dictGet st.active_rooms rid = some room)
    (hu : u ∈ room.participants) :
    join_room st u (some rid) = Except.ok (st, []) := by
  simp [join_room, hroom, hu]

theorem dictSet_dictSet {α : Type} (d : List (String × α)) (k : String)
    (v v' : α) : dictSet (dictSet d k v) k v' = dictSet d k v' := by
  induction d with
  | nil => simp [dictSet]
  | cons hd tl ih =>
      obtain ⟨k₀, v₀⟩ := hd
      by_cases h : k₀ = k
      · subst h
        simp [dictSet]
      · simp [dictSet, h, ih]

/-- `join_room` on an existing room the user is not yet in: append the user,
overwrite the membership entry, broadcast `user-joined`, unicast `room-joined`
if the joiner is connected. -/
theorem join_room_new_existing (st : ServerState) (u rid : String)
    (room : CallRoom) (hroom : dictGet st.active_rooms rid = some room)
    (hu : u ∉ room.participants) :
    join_room st u (some rid) =
      Except.ok
        (⟨dictSet st.active_rooms rid
            { room with participants := room.participants ++ [u] },
          st.websocket_connections, dictSet st.user_rooms u rid, st.clock⟩,
         broadcast_to_room
            ⟨dictSet st.active_rooms rid
                { room with participants := room.participants ++ [u] },
              st.websocket_connections, dictSet st.user_rooms u rid, st.clock⟩
            rid (Msg.userJoined u (room.participants ++ [u])) (some u) ++
          (if u ∈ st.websocket_connections then
            [(u, Msg.roomJoined rid (room.participants ++ [u]))]
          else [])) := by
  simp [join_room, hroom, hu]

/-- `join_room` on an absent room: create it with the current clock, then a
genuine join of the fresh empty room. -/
theorem join_room_new_absent (st : ServerState) (u rid : String)
    (hroom : dictGet st.active_rooms rid = none) :
    join_room st u (some rid) =
      Except.ok
        (⟨dictSet st.active_rooms rid ⟨rid, st.clock, [u]⟩,
          st.websocket_connections, dictSet st.user_rooms u rid, st.clock + 1⟩,
         broadcast_to_room
            ⟨dictSet st.active_rooms rid ⟨rid, st.clock, [u]⟩,
              st.websocket_connections, dictSet st.user_rooms u rid,
              st.clock + 1⟩
            rid (Msg.userJoined u [u]) (some u) ++
          (if u ∈ st.websocket_connections then
            [(u, Msg.roomJoined rid [u])]
          else [])) := by
  simp [join_room, hroom, dictSet_dictSet]

/-- `cleanup_user` touches no room other than the one the user's membership
entry names. -/
theorem cleanup_user_other_room (st : ServerState) (u r : String)
    (h : ∀ rid, dictGet st.user_rooms u = some rid → rid ≠ r) :
    dictGet (cleanup_user st u).1.active_rooms r = dictGet st.active_rooms r := by
  unfold cleanup_user
  cases hm : dictGet st.user_rooms u with
  | none => simp [hm]
  | some rid =>
      have hner : rid ≠ r := h rid hm
      by_cases hemp : rid = ""
      · simp [hm, hemp]
      · cases hr : dictGet st.active_rooms rid with
        | none => simp [hm, hemp, hr]
        | some room =>
            by_cases hu : u ∈ room.participants
            · simp only [hm, hemp, hr, hu, if_neg hemp, if_pos hu, ite_true,
                ite_false]
              by_cases he : room.participants.erase u = []
              · simp [he, dictGet_dictDel, dictGet_dictSet, hner,
                  fun hk : rid = r => hner hk]
              · simp [he, dictGet_dictSet, hner]
            · simp [hm, hemp, hr, hu]

/-- Claim C4, as stated, is false in one corner: if the user's membership
currently points at room ra but the user is *already listed* in room rb's
participants (reachable by joining rb first, then ra), a `join_room` back to
rb is a no-op and the membership entry is NOT overwritten to rb. -/
theorem join_room_remap_counterexample :
    join_room (run [Event.connect "A", Event.frame "A" (joinF "rb"),
        Event.frame "A" (joinF "ra")]) "A" (some "rb") =
      Except.ok (run [Event.connect "A", Event.frame "A" (joinF "rb"),
        Event.frame "A" (joinF "ra")], []) ∧
    dictGet (run [Event.connect "A", Event.frame "A" (joinF "rb"),
        Event.frame "A" (joinF "ra")]).user_rooms "A" = some "ra" ∧
    ("ra" : String) ≠ "rb" := by
  refine ⟨rfl, rfl, by decide⟩

/-- Claim C4 (amended): if the user's membership maps to room a, room b is
distinct from a, and the user is not already listed in b, then `join_room`
to b overwrites the membership entry to b, leaves room a's record (with the
user's stale entry) untouched, and a later `cleanup_user` consults only the
current mapping b, so room a's record — stale entry included — survives the
cleanup as well. -/
theorem join_room_orphans_old_room (st st' : ServerState) (u a b : String)
    (roomA : CallRoom) (out : List (String × Msg))
    (hm : dictGet st.user_rooms u = some a) (hba : b ≠ a)
    (hra : dictGet st.active_rooms a = some roomA)
    (hu : u ∈ roomA.participants)
    (hnotb : ∀ roomB, dictGet st.active_rooms b = some roomB →
      u ∉ roomB.participants)
    (hjoin : join_room st u (some b) = Except.ok (st', out)) :
    dictGet st'.user_rooms u = some b ∧
    dictGet st'.active_rooms a = some roomA ∧
    u ∈ roomA.participants ∧
    dictGet (cleanup_user st' u).1.active_rooms a = some roomA := by
  have hcond : ∀ st₂ : ServerState,
      st₂.user_rooms = dictSet st.user_rooms u b →
      ∀ rid, dictGet st₂.user_rooms u = some rid → rid ≠ a := by
    intro st₂ hur rid hrid
    rw [hur, dictGet_dictSet, if_pos rfl] at hrid
    injection hrid with hh
    subst hh
    exact hba
  cases hb : dictGet st.active_rooms b with
  | some roomB =>
      rw [join_room_new_existing st u b roomB hb (hnotb roomB hb)] at hjoin
      injection hjoin with hpair
      injection hpair with hst hout
      subst hst
      refine ⟨?_, ?_, hu, ?_⟩
      · rw [dictGet_dictSet, if_pos rfl]
      · rw [dictGet_dictSet, if_neg hba]
        exact hra
      · rw [cleanup_user_other_room _ _ _ (hcond _ rfl)]
        rw [dictGet_dictSet, if_neg hba]
        exact hra
  | none =>
      rw [join_room_new_absent st u b hb] at hjoin
      injection hjoin with hpair
      injection hpair with hst hout
      subst hst
      refine ⟨?_, ?_, hu, ?_⟩
      · rw [dictGet_dictSet, if_pos rfl]
      · rw [dictGet_dictSet, if_neg hba]
        exact hra
      · rw [cleanup_user_other_room _ _ _ (hcond _ rfl)]
        rw [dictGet_dictSet, if_neg hba]
        exact hra

/-- Witness for `join_room_orphans_old_room`: A sits in room ra, joins rb;
the mapping flips to rb, ra still lists A, and cleanup leaves ra intact. -/
theorem join_room_orphans_old_room_witness :
    dictGet ((⟨[("ra", ⟨"ra", 0, ["A"]⟩), ("rb", ⟨"rb", 1, ["A"]⟩)],
        (["A"] : List String), [("A", "rb")], 2⟩ :
          ServerState)).user_rooms "A" = some "rb" ∧
    dictGet ((⟨[("ra", ⟨"ra", 0, ["A"]⟩), ("rb", ⟨"rb", 1, ["A"]⟩)],
        (["A"] : List String), [("A", "rb")], 2⟩ :
          ServerState)).active_rooms "ra" = some ⟨"ra", 0, ["A"]⟩ ∧
    "A" ∈ (⟨"ra", 0, ["A"]⟩ : CallRoom).participants ∧
    dictGet (cleanup_user (⟨[("ra", ⟨"ra", 0, ["A"]⟩), ("rb", ⟨"rb", 1, ["A"]⟩)],
        (["A"] : List String), [("A", "rb")], 2⟩ : ServerState)
        "A").1.active_rooms "ra" = some ⟨"ra", 0, ["A"]⟩ := by
  exact join_room_orphans_old_room
    ⟨[("ra", ⟨"ra", 0, ["A"]⟩)], ["A"], [("A", "ra")], 1⟩
    ⟨[("ra", ⟨"ra", 0, ["A"]⟩), ("rb", ⟨"rb", 1, ["A"]⟩)], ["A"],
      [("A", "rb")], 2⟩
    "A" "ra" "rb" ⟨"ra", 0, ["A"]⟩
    [("A", Msg.roomJoined "rb" ["A"])]
    (by decide) (by decide) (by decide) (by decide)
    (by intro roomB h; simp [dictGet] at h) rfl

/-- Claim C6: joining a room the user already belongs to is idempotent — the
room record is unchanged (no duplicate participant entry) and no message at
all (in particular no `user-joined` announcement) is emitted. -/
theorem join_room_idempotent (st : ServerState) (u rid : String)
    (room : CallRoom) (hroom : dictGet st.active_rooms rid = some room)
    (hu : u ∈ room.participants) :
    ∀ st' out, join_room st u (some rid) = Except.ok (st', out) →
      dictGet st'.active_rooms rid = some room ∧ out = [] := by
  intro st' out h
  rw [join_room_mem_noop st u rid room hroom hu] at h
  injection h with hpair
  injection hpair with hst hout
  subst hst
  subst hout
  exact ⟨hroom, rfl⟩

/-- Witness for `join_room_idempotent`: A re-joins room r it already sits in;
nothing changes and nothing is sent. -/
theorem join_room_idempotent_witness :
    dictGet ((⟨[("r", ⟨"r", 0, ["A"]⟩)], ["A"], [("A", "r")], 1⟩ :
        ServerState)).active_rooms "r" = some ⟨"r", 0, ["A"]⟩ ∧
    ([] : List (String × Msg)) = [] := by
  exact join_room_idempotent
    ⟨[("r", ⟨"r", 0, ["A"]⟩)], ["A"], [("A", "r")], 1⟩ "A" "r" ⟨"r", 0, ["A"]⟩
    (by decide) (by decide)
    ⟨[("r", ⟨"r", 0, ["A"]⟩)], ["A"], [("A", "r")], 1⟩ [] rfl

/-- Claim C10: a re-join of a room the user is already listed in returns the
state entirely unchanged — all three registries identical, so a membership
entry pointing at some other room keeps pointing there — and sends nothing. -/
theorem join_room_rejoin_frame_effect (st : ServerState) (u rid : String)
    (room : CallRoom) (hroom : dictGet st.active_rooms rid = some room)
    (hu : u ∈ room.participants) :
    join_room st u (some rid) = Except.ok (st, []) ∧
    ∀ r₀, dictGet st.user_rooms u = some r₀ →
      ∀ st' out, join_room st u (some rid) = Except.ok (st', out) →
        dictGet st'.user_rooms u = some r₀ := by
  refine ⟨join_room_mem_noop st u rid room hroom hu, ?_⟩
  intro r₀ h₀ st' out h
  rw [join_room_mem_noop st u rid room hroom hu] at h
  injection h with hpair
  injection hpair with hst hout
  subst hst
  exact h₀

/-- Witness for `join_room_rejoin_frame_effect`: B re-joins room q while its
membership entry points at room p; the state, entry included, is untouched. -/
theorem join_room_rejoin_frame_effect_witness :
    join_room (⟨[("q", ⟨"q", 0, ["B"]⟩), ("p", ⟨"p", 1, ["B"]⟩)], ["B"],
        [("B", "p")], 2⟩ : ServerState) "B" (some "q") =
      Except.ok (⟨[("q", ⟨"q", 0, ["B"]⟩), ("p", ⟨"p", 1, ["B"]⟩)], ["B"],
        [("B", "p")], 2⟩, []) ∧
    dictGet ((⟨[("q", ⟨"q", 0, ["B"]⟩), ("p", ⟨"p", 1, ["B"]⟩)], ["B"],
        [("B", "p")], 2⟩ : ServerState)).user_rooms "B" = some "p" := by
  have h := join_room_rejoin_frame_effect
    ⟨[("q", ⟨"q", 0, ["B"]⟩), ("p", ⟨"p", 1, ["B"]⟩)], ["B"], [("B", "p")], 2⟩
    "B" "q" ⟨"q", 0, ["B"]⟩ (by decide) (by decide)
  exact ⟨h.1, h.2 "p" (by decide)
    ⟨[("q", ⟨"q", 0, ["B"]⟩), ("p", ⟨"p", 1, ["B"]⟩)], ["B"], [("B", "p")], 2⟩
    [] h.1⟩

/-- `handle_signaling_message` on a forwarded type with no membership entry:
silently dropped. -/
theorem handle_forward_none (st : ServerState) (u t : String)
    (rfield data : Option String)
    (ht : t = "offer" ∨ t = "answer" ∨ t = "ice-candidate")
    (hm : dictGet st.user_rooms u = none) :
    handle_signaling_message st u (some t) rfield data = Except.ok (st, []) := by
  have hnj : ¬t = "join-room" := by
    rcases ht with h | h | h <;> subst h <;> decide
  simp [handle_signaling_message, hnj, ht, hm]

/-- `handle_signaling_message` on a forwarded type with a truthy membership
id naming an existing room: the broadcast excluding the sender, with state
unchanged. -/
theorem handle_forward_send (st : ServerState) (u t r : String)
    (room : CallRoom) (rfield data : Option String)
    (ht : t = "offer" ∨ t = "answer" ∨ t = "ice-candidate")
    (hm : dictGet st.user_rooms u = some r) (hne : r ≠ "")
    (hroom : dictGet st.active_rooms r = some room) :
    handle_signaling_message st u (some t) rfield data =
      Except.ok (st, broadcast_to_room st r (Msg.signal t data u) (some u)) := by
  have hnj : ¬t = "join-room" := by
    rcases ht with h | h | h <;> subst h <;> decide
  simp [handle_signaling_message, hnj, ht, hm, hne, hroom]

/-- `handle_signaling_message` on a forwarded type whose membership id is the
empty string (falsy in Python) or names no existing room: silently dropped. -/
theorem handle_forward_drop (st : ServerState) (u t r : String)
    (rfield data : Option String)
    (ht : t = "offer" ∨ t = "answer" ∨ t = "ice-candidate")
    (hm : dictGet st.user_rooms u = some r)
    (hdrop : r = "" ∨ dictGet st.active_rooms r = none) :
    handle_signaling_message st u (some t) rfield data = Except.ok (st, []) := by
  have hnj : ¬t = "join-room" := by
    rcases ht with h | h | h <;> subst h <;> decide
  have hc : ¬(r ≠ "" ∧ (dictGet st.active_rooms r).isSome) := by
    rcases hdrop with h | h
    · exact fun hc => hc.1 h
    · exact fun hc => by rw [h] at hc; exact Bool.noConfusion hc.2
  simp only [handle_signaling_message, if_neg hnj, if_pos ht, hm, if_neg hc]

/-- Claim C7 (amended): an offer/answer/ice-candidate frame never errors and
never changes state; every delivered copy carries the same type, the original
`data` untouched, and `from_user` = the sender, and never goes to the sender;
when the sender's membership names an existing room with a *non-empty* id the
output is exactly the broadcast to that room excluding the sender; with no
membership entry, a membership entry pointing at no existing room, or an
empty-string room id (falsy in `if room_id and ...`), the frame is silently
dropped with no output. -/
theorem handle_signaling_forward (st : ServerState) (u t : String)
    (rfield data : Option String)
    (ht : t = "offer" ∨ t = "answer" ∨ t = "ice-candidate") :
    (∀ st' out,
      handle_signaling_message st u (some t) rfield data =
        Except.ok (st', out) →
      st' = st ∧ ∀ p m, (p, m) ∈ out → m = Msg.signal t data u ∧ p ≠ u) ∧
    (∀ r room, dictGet st.user_rooms u = some r → r ≠ "" →
      dictGet st.active_rooms r = some room →
      handle_signaling_message st u (some t) rfield data =
        Except.ok (st, broadcast_to_room st r (Msg.signal t data u) (some u))) ∧
    (dictGet st.user_rooms u = none →
      handle_signaling_message st u (some t) rfield data =
        Except.ok (st, [])) ∧
    (∀ r, dictGet st.user_rooms u = some r →
      r = "" ∨ dictGet st.active_rooms r = none →
      handle_signaling_message st u (some t) rfield data =
        Except.ok (st, [])) := by
  refine ⟨?_, ?_, ?_, ?_⟩
  · intro st' out h
    cases hg : dictGet st.user_rooms u with
    | none =>
        rw [handle_forward_none st u t rfield data ht hg] at h
        injection h with hpair
        injection hpair with hst hout
        subst hst
        refine ⟨rfl, ?_⟩
        intro p m hmem
        rw [← hout] at hmem
        simp at hmem
    | some r =>
        by_cases hne : r = ""
        · rw [handle_forward_drop st u t r rfield data ht hg (Or.inl hne)] at h
          injection h with hpair
          injection hpair with hst hout
          subst hst
          refine ⟨rfl, ?_⟩
          intro p m hmem
          rw [← hout] at hmem
          simp at hmem
        · cases hroom : dictGet st.active_rooms r with
          | none =>
              rw [handle_forward_drop st u t r rfield data ht hg
                (Or.inr hroom)] at h
              injection h with hpair
              injection hpair with hst hout
              subst hst
              refine ⟨rfl, ?_⟩
              intro p m hmem
              rw [← hout] at hmem
              simp at hmem
          | some room =>
              rw [handle_forward_send st u t r room rfield data ht hg hne
                hroom] at h
              injection h with hpair
              injection hpair with hst hout
              subst hst
              refine ⟨rfl, ?_⟩
              intro p m hmem
              rw [← hout] at hmem
              obtain ⟨hmm, hpe, _, _⟩ := broadcast_mem st r _ _ p m hmem
              refine ⟨hmm, ?_⟩
              intro hpu
              exact hpe (by rw [hpu])
  · intro r room hr hne hroom
    exact handle_forward_send st u t r room rfield data ht hr hne hroom
  · intro hr
    exact handle_forward_none st u t rfield data ht hr
  · intro r hr hdrop
    exact handle_forward_drop st u t r rfield data ht hr hdrop

/-- Witness for `handle_signaling_forward`: A and B share room r; A's offer
is forwarded to B alone, with the payload untouched and `from_user` = A. -/
theorem handle_signaling_forward_witness :
    handle_signaling_message
      (⟨[("r", ⟨"r", 0, ["A", "B"]⟩)], ["A", "B"],
        [("A", "r"), ("B", "r")], 1⟩ : ServerState)
      "A" (some "offer") none (some "sdp") =
      Except.ok
        (⟨[("r", ⟨"r", 0, ["A", "B"]⟩)], ["A", "B"],
          [("A", "r"), ("B", "r")], 1⟩,
         broadcast_to_room
          (⟨[("r", ⟨"r", 0, ["A", "B"]⟩)], ["A", "B"],
            [("A", "r"), ("B", "r")], 1⟩ : ServerState)
          "r" (Msg.signal "offer" (some "sdp") "A") (some "A")) := by
  have h := handle_signaling_forward
    ⟨[("r", ⟨"r", 0, ["A", "B"]⟩)], ["A", "B"], [("A", "r"), ("B", "r")], 1⟩
    "A" "offer" none (some "sdp") (Or.inl rfl)
  exact h.2.1 "r" ⟨"r", 0, ["A", "B"]⟩ (by decide) (by decide) (by decide)

/-- Claim C7, as stated, is false in one corner: clients can join the room
whose identifier is the empty string; A's membership then maps to that
existing room holding connected peer B, yet A's offer is dropped, because
`if room_id and room_id in active_rooms` treats the empty string as falsy. -/
theorem handle_signaling_counterexample :
    dictGet (run [Event.connect "A", Event.connect "B",
        Event.frame "A" (joinF ""), Event.frame "B" (joinF "")]).user_rooms
        "A" = some "" ∧
    dictGet (run [Event.connect "A", Event.connect "B",
        Event.frame "A" (joinF ""), Event.frame "B" (joinF "")]).active_rooms
        "" = some ⟨"", 0, ["A", "B"]⟩ ∧
    "B" ∈ (run [Event.connect "A", Event.connect "B",
        Event.frame "A" (joinF ""),
        Event.frame "B" (joinF "")]).websocket_connections ∧
    handle_signaling_message (run [Event.connect "A", Event.connect "B",
        Event.frame "A" (joinF ""), Event.frame "B" (joinF "")])
        "A" (some "offer") none (some "x") =
      Except.ok (run [Event.connect "A", Event.connect "B",
        Event.frame "A" (joinF ""), Event.frame "B" (joinF "")], []) := by
  exact ⟨rfl, rfl, by decide, rfl⟩

/-- Claim C8 (amended): on a genuine new join by a *connected* user, the room
record ends with the joiner appended, and the output is exactly the
`user-joined` broadcast to the room excluding the joiner followed by the
`room-joined` unicast to the joiner, both carrying the full participant list
(old list, in join order, with the joiner appended).  A joiner with no
connection entry gets no `room-joined` unicast. -/
theorem join_room_announce_order (st st' : ServerState) (u rid : String)
    (out : List (String × Msg))
    (hnew : ∀ room₀, dictGet st.active_rooms rid = some room₀ →
      u ∉ room₀.participants)
    (hcon : u ∈ st.websocket_connections)
    (hjoin : join_room st u (some rid) = Except.ok (st', out)) :
    (dictGet st'.active_rooms rid).isSome = true ∧
    ∀ room', dictGet st'.active_rooms rid = some room' →
      room'.participants =
        ((dictGet st.active_rooms rid).map CallRoom.participants).getD []
          ++ [u] ∧
      out = broadcast_to_room st' rid
          (Msg.userJoined u room'.participants) (some u) ++
        [(u, Msg.roomJoined rid room'.participants)] := by
  cases hb : dictGet st.active_rooms rid with
  | some room =>
      rw [join_room_new_existing st u rid room hb (hnew room hb)] at hjoin
      injection hjoin with hpair
      injection hpair with hst hout
      subst hst
      constructor
      · rw [dictGet_dictSet, if_pos rfl]
        rfl
      · intro room' hroom'
        rw [dictGet_dictSet, if_pos rfl] at hroom'
        injection hroom' with hh
        subst hh
        constructor
        · simp
        · rw [← hout, if_pos hcon]
  | none =>
      rw [join_room_new_absent st u rid hb] at hjoin
      injection hjoin with hpair
      injection hpair with hst hout
      subst hst
      constructor
      · rw [dictGet_dictSet, if_pos rfl]
        rfl
      · intro room' hroom'
        rw [dictGet_dictSet, if_pos rfl] at hroom'
        injection hroom' with hh
        subst hh
        constructor
        · simp
        · rw [← hout, if_pos hcon]

/-- Witness for `join_room_announce_order`: B (connected) joins room r already
holding A; A gets `user-joined`, then B gets `room-joined`, both listing
["A", "B"]. -/
theorem join_room_announce_order_witness :
    (⟨"r", 0, ["A", "B"]⟩ : CallRoom).participants =
      ((dictGet ((⟨[("r", ⟨"r", 0, ["A"]⟩)], ["A", "B"], [("A", "r")], 1⟩ :
          ServerState)).active_rooms "r").map CallRoom.participants).getD []
        ++ ["B"] ∧
    [("A", Msg.userJoined "B" ["A", "B"]),
        ("B", Msg.roomJoined "r" ["A", "B"])] =
      broadcast_to_room (⟨[("r", ⟨"r", 0, ["A", "B"]⟩)], ["A", "B"],
          [("A", "r"), ("B", "r")], 1⟩ : ServerState) "r"
          (Msg.userJoined "B" (⟨"r", 0, ["A", "B"]⟩ : CallRoom).participants)
          (some "B") ++
        [("B", Msg.roomJoined "r"
          (⟨"r", 0, ["A", "B"]⟩ : CallRoom).participants)] := by
  have h := join_room_announce_order
    ⟨[("r", ⟨"r", 0, ["A"]⟩)], ["A", "B"], [("A", "r")], 1⟩
    ⟨[("r", ⟨"r", 0, ["A", "B"]⟩)], ["A", "B"], [("A", "r"), ("B", "r")], 1⟩
    "B" "r"
    [("A", Msg.userJoined "B" ["A", "B"]), ("B", Msg.roomJoined "r" ["A", "B"])]
    (by
      intro room₀ h₀
      have h₁ : some (⟨"r", 0, ["A"]⟩ : CallRoom) = some room₀ := h₀
      injection h₁ with hh
      rw [← hh]
      decide)
    (by decide) rfl
  exact h.2 ⟨"r", 0, ["A", "B"]⟩ rfl

/-- Claim C8, as stated, is false in one corner: after `delete_room` has
cleaned B's connection entry (B's socket itself is never closed by it), B's
next `join-room` is a genuine new join, yet no `room-joined` unicast is sent,
because `if user_id in websocket_connections` fails. -/
theorem join_room_unicast_counterexample :
    dictGet (run [Event.connect "B", Event.frame "B" (joinF "r0"),
        Event.deleteRoom "r0"]).active_rooms "r1" = none ∧
    join_room (run [Event.connect "B", Event.frame "B" (joinF "r0"),
        Event.deleteRoom "r0"]) "B" (some "r1") =
      Except.ok (⟨[("r1", ⟨"r1", 1, ["B"]⟩)], [], [("B", "r1")], 2⟩,
        ([] : List (String × Msg))) := by
  exact ⟨rfl, rfl⟩

/-- `cleanup_user` always removes the user's connection entry (in every
branch the connections map is the same filtered list). -/
theorem cleanup_user_conns (st : ServerState) (u : String) :
    (cleanup_user st u).1.websocket_connections =
      st.websocket_connections.filter (fun x => x ≠ u) := by
  unfold cleanup_user
  cases hm : dictGet st.user_rooms u with
  | none => simp [hm]
  | some rid =>
      by_cases he : rid = ""
      · simp [hm, he]
      · cases hr : dictGet st.active_rooms rid with
        | none => simp [hm, he, hr]
        | some room =>
            by_cases hu : u ∈ room.participants
            · simp only [hm, he, hr, hu, if_neg he, if_pos hu, ite_true,
                ite_false]
              by_cases hemp : room.participants.erase u = [] <;> simp [hemp]
            · simp [hm, he, hr, hu]

/-- `cleanup_user` always leaves the user without a membership entry. -/
theorem cleanup_user_membership (st : ServerState) (u : String) :
    dictGet (cleanup_user st u).1.user_rooms u = none := by
  unfold cleanup_user
  cases hm : dictGet st.user_rooms u with
  | none => simp [hm]
  | some rid =>
      by_cases he : rid = ""
      · simp [hm, he, dictGet_dictDel]
      · cases hr : dictGet st.active_rooms rid with
        | none => simp [hm, he, hr, dictGet_dictDel]
        | some room =>
            by_cases hu : u ∈ room.participants
            · simp only [hm, he, hr, hu, if_neg he, if_pos hu, ite_true,
                ite_false]
              by_cases hemp : room.participants.erase u = [] <;>
                simp [hemp, dictGet_dictDel]
            · simp [hm, he, hr, hu, dictGet_dictDel]

/-- Claim C9, as stated, is false for one malformed-frame shape: a frame that
parses as a JSON object but has no `type` field matches no dispatch branch of
`handle_signaling_message`, so it is silently ignored — the connection is NOT
torn down (A stays registered) and nothing changes. -/
theorem missing_type_counterexample :
    ws_step (run [Event.connect "A"]) "A" (Frame.obj none none none) =
      (run [Event.connect "A"], []) ∧
    "A" ∈ (run [Event.connect "A"]).websocket_connections := by
  exact ⟨rfl, by decide⟩

/-- Claim C9 (amended): a frame that is not a parseable JSON object tears the
connection down via `cleanup_user`, as does a `join-room` frame missing its
`room_id` (the escaping validation error lands in the same handler); but a
parsed object missing the `type` field is silently ignored with no state
change.  Teardown via `cleanup_user` leaves no half-registration: afterwards
the user has neither a connections entry nor a membership entry. -/
theorem malformed_frame_handling (st : ServerState) (u : String) :
    ws_step st u Frame.malformed = cleanup_user st u ∧
    (∀ d, ws_step st u (Frame.obj (some "join-room") none d) =
      cleanup_user st u) ∧
    (∀ rid d, ws_step st u (Frame.obj none rid d) = (st, [])) ∧
    u ∉ (cleanup_user st u).1.websocket_connections ∧
    dictGet (cleanup_user st u).1.user_rooms u = none := by
  refine ⟨rfl, ?_, ?_, ?_, cleanup_user_membership st u⟩
  · intro d
    simp [ws_step, handle_signaling_message, join_room]
  · intro rid d
    simp [ws_step, handle_signaling_message]
  · rw [cleanup_user_conns]
    simp [List.mem_filter]

theorem emptyHere_set (d : List (String × CallRoom)) (k r : String)
    (room : CallRoom) :
    emptyHere (dictSet d k room) r =
      if k = r then room.participants.isEmpty else emptyHere d r := by
  unfold emptyHere
  rw [dictGet_dictSet]
  by_cases h : k = r <;> simp [h]

theorem emptyHere_del (d : List (String × CallRoom)) (k r : String) :
    emptyHere (dictDel d k) r = if k = r then false else emptyHere d r := by
  unfold emptyHere
  rw [dictGet_dictDel]
  by_cases h : k = r <;> simp [h]

theorem noNewEmpty_refl (d : List (String × CallRoom)) : noNewEmpty d d :=
  fun _ h => h

theorem noNewEmpty_trans (a b c : List (String × CallRoom))
    (h₁ : noNewEmpty a b) (h₂ : noNewEmpty b c) : noNewEmpty a c :=
  fun r h => h₁ r (h₂ r h)

theorem noNewEmpty_set (d : List (String × CallRoom)) (k : String)
    (room : CallRoom) (hne : room.participants ≠ []) :
    noNewEmpty d (dictSet d k room) := by
  intro r h
  rw [emptyHere_set] at h
  by_cases hk : k = r
  · rw [if_pos hk] at h
    exact absurd (List.isEmpty_iff.mp h) hne
  · rwa [if_neg hk] at h

theorem noNewEmpty_set_del (d : List (String × CallRoom)) (k : String)
    (room : CallRoom) : noNewEmpty d (dictDel (dictSet d k room) k) := by
  intro r h
  rw [emptyHere_del] at h
  by_cases hk : k = r
  · rw [if_pos hk] at h
    exact absurd h (by simp)
  · rw [if_neg hk, emptyHere_set, if_neg hk] at h
    exact h

theorem cleanup_noNewEmpty (st : ServerState) (u : String) :
    noNewEmpty st.active_rooms (cleanup_user st u).1.active_rooms := by
  unfold cleanup_user
  cases hm : dictGet st.user_rooms u with
  | none =>
      simp only [hm]
      exact noNewEmpty_refl _
  | some rid =>
      by_cases he : rid = ""
      · simp only [hm, he, ite_true, eq_self_iff_true, if_true]
        exact noNewEmpty_refl _
      · cases hr : dictGet st.active_rooms rid with
        | none =>
            simp only [hm, he, hr, if_neg he, ite_false]
            exact noNewEmpty_refl _
        | some room =>
            by_cases hu : u ∈ room.participants
            · simp only [hm, he, hr, hu, if_neg he, if_pos hu, ite_true,
                ite_false]
              by_cases hemp : room.participants.erase u = []
              · simp only [hemp, eq_self_iff_true, ite_true, if_true]
                exact noNewEmpty_set_del st.active_rooms rid _
              · simp only [hemp, ite_false, if_neg hemp]
                exact noNewEmpty_set st.active_rooms rid _ (by simpa using hemp)
            · simp only [hm, he, hr, hu, if_neg he, if_neg hu, ite_false]
              exact noNewEmpty_refl _

theorem join_noNewEmpty (st st' : ServerState) (u : String)
    (orid : Option String) (out : List (String × Msg))
    (h : join_room st u orid = Except.ok (st', out)) :
    noNewEmpty st.active_rooms st'.active_rooms := by
  cases orid with
  | none => exact absurd h (by simp [join_room])
  | some rid =>
      cases hb : dictGet st.active_rooms rid with
      | some room =>
          by_cases hu : u ∈ room.participants
          · rw [join_room_mem_noop st u rid room hb hu] at h
            injection h with hpair
            injection hpair with hst hout
            subst hst
            exact noNewEmpty_refl _
          · rw [join_room_new_existing st u rid room hb hu] at h
            injection h with hpair
            injection hpair with hst hout
            subst hst
            exact noNewEmpty_set st.active_rooms rid _ (by simp)
      | none =>
          rw [join_room_new_absent st u rid hb] at h
          injection h with hpair
          injection hpair with hst hout
          subst hst
          exact noNewEmpty_set st.active_rooms rid _ (by simp)

theorem handle_noNewEmpty (st st' : ServerState) (u : String)
    (ty rfield data : Option String) (out : List (String × Msg))
    (h : handle_signaling_message st u ty rfield data = Except.ok (st', out)) :
    noNewEmpty st.active_rooms st'.active_rooms := by
  cases ty with
  | none =>
      simp only [handle_signaling_message] at h
      injection h with hpair
      injection hpair with hst hout
      subst hst
      exact noNewEmpty_refl _
  | some t =>
      by_cases hj : t = "join-room"
      · subst hj
        have hjr : handle_signaling_message st u (some "join-room")
            rfield data = join_room st u rfield := by
          simp [handle_signaling_message]
        rw [hjr] at h
        exact join_noNewEmpty st st' u rfield out h
      · by_cases hs : t = "offer" ∨ t = "answer" ∨ t = "ice-candidate"
        · cases hm : dictGet st.user_rooms u with
          | none =>
              rw [handle_forward_none st u t rfield data hs hm] at h
              injection h with hpair
              injection hpair with hst hout
              subst hst
              exact noNewEmpty_refl _
          | some r =>
              by_cases he : r = ""
              · rw [handle_forward_drop st u t r rfield data hs hm
                  (Or.inl he)] at h
                injection h with hpair
                injection hpair with hst hout
                subst hst
                exact noNewEmpty_refl _
              · cases hroom : dictGet st.active_rooms r with
                | none =>
                    rw [handle_forward_drop st u t r rfield data hs hm
                      (Or.inr hroom)] at h
                    injection h with hpair
                    injection hpair with hst hout
                    subst hst
                    exact noNewEmpty_refl _
                | some room =>
                    rw [handle_forward_send st u t r room rfield data hs hm he
                      hroom] at h
                    injection h with hpair
                    injection hpair with hst hout
                    subst hst
                    exact noNewEmpty_refl _
        · have hor : handle_signaling_message st u (some t) rfield data =
              Except.ok (st, []) := by
            simp [handle_signaling_message, hj, hs]
          rw [hor] at h
          injection h with hpair
          injection hpair with hst hout
          subst hst
          exact noNewEmpty_refl _

theorem ws_step_noNewEmpty (st : ServerState) (u : String) (f : Frame) :
    noNewEmpty st.active_rooms (ws_step st u f).1.active_rooms := by
  cases f with
  | malformed => exact cleanup_noNewEmpty st u
  | obj ty rid data =>
      simp only [ws_step]
      cases hh : handle_signaling_message st u ty rid data with
      | ok r =>
          simp only []
          exact handle_noNewEmpty st r.1 u ty rid data r.2 hh
      | error e =>
          simp only []
          exact cleanup_noNewEmpty st u

theorem noNewEmpty_del (d : List (String × CallRoom)) (k : String) :
    noNewEmpty d (dictDel d k) := by
  intro r h
  rw [emptyHere_del] at h
  by_cases hk : k = r
  · rw [if_pos hk] at h
    exact absurd h (by simp)
  · rwa [if_neg hk] at h

theorem cleanups_noNewEmpty (ps : List String) :
    ∀ acc : ServerState × List (String × Msg),
    noNewEmpty acc.1.active_rooms
      ((ps.foldl (fun acc p =>
        ((cleanup_user acc.1 p).1, acc.2 ++ (cleanup_user acc.1 p).2))
        acc).1.active_rooms) := by
  induction ps with
  | nil => intro acc; exact noNewEmpty_refl _
  | cons p tl ih =>
      intro acc
      refine noNewEmpty_trans _ _ _ (cleanup_noNewEmpty acc.1 p) ?_
      exact ih ((cleanup_user acc.1 p).1, acc.2 ++ (cleanup_user acc.1 p).2)

theorem delete_room_noNewEmpty (st : ServerState) (rid : String) :
    noNewEmpty st.active_rooms (delete_room st rid).1.active_rooms := by
  cases hroom : dictGet st.active_rooms rid with
  | none =>
      have heq : delete_room st rid = (st, [], RestResult.notFound) := by
        simp [delete_room, hroom]
      rw [heq]
      exact noNewEmpty_refl _
  | some room =>
      have hsplit : (delete_room st rid).1.active_rooms =
          if (dictGet (room.participants.foldl (fun acc p =>
              ((cleanup_user acc.1 p).1, acc.2 ++ (cleanup_user acc.1 p).2))
              (st, ([] : List (String × Msg)))).1.active_rooms rid).isSome then
            dictDel (room.participants.foldl (fun acc p =>
              ((cleanup_user acc.1 p).1, acc.2 ++ (cleanup_user acc.1 p).2))
              (st, ([] : List (String × Msg)))).1.active_rooms rid
          else
            (room.participants.foldl (fun acc p =>
              ((cleanup_user acc.1 p).1, acc.2 ++ (cleanup_user acc.1 p).2))
              (st, ([] : List (String × Msg)))).1.active_rooms := by
        simp only [delete_room, hroom]
        split <;> rfl
      rw [hsplit]
      by_cases hc : (dictGet (room.participants.foldl (fun acc p =>
          ((cleanup_user acc.1 p).1, acc.2 ++ (cleanup_user acc.1 p).2))
          (st, ([] : List (String × Msg)))).1.active_rooms rid).isSome
      · rw [if_pos hc]
        exact noNewEmpty_trans _ _ _
          (cleanups_noNewEmpty room.participants (st, []))
          (noNewEmpty_del _ rid)
      · rw [if_neg hc]
        exact cleanups_noNewEmpty room.participants (st, [])

theorem stepG_inv (acc : ServerState × List String) (e : Event)
    (h : pristineInv acc) : pristineInv (stepG acc e) := by
  intro r hr
  cases e with
  | connect u =>
      simp only [stepG, applyEvent] at hr ⊢
      rw [List.mem_filter]
      refine ⟨?_, by simpa using hr⟩
      have hrooms : (ws_connect acc.1 u).active_rooms = acc.1.active_rooms :=
        rfl
      rw [hrooms] at hr
      exact h r hr
  | frame u f =>
      simp only [stepG, applyEvent] at hr ⊢
      rw [List.mem_filter]
      refine ⟨?_, by simpa using hr⟩
      exact h r (ws_step_noNewEmpty acc.1 u f r hr)
  | disconnect u =>
      simp only [stepG, applyEvent] at hr ⊢
      rw [List.mem_filter]
      refine ⟨?_, by simpa using hr⟩
      exact h r (cleanup_noNewEmpty acc.1 u r hr)
  | createRoom c =>
      simp only [stepG, applyEvent] at hr ⊢
      rw [List.mem_filter]
      refine ⟨?_, by simpa using hr⟩
      have hrooms : (create_room acc.1 c).1.active_rooms =
          dictSet acc.1.active_rooms c ⟨c, acc.1.clock, []⟩ := rfl
      rw [hrooms, emptyHere_set] at hr
      by_cases hcr : c = r
      · rw [hcr]
        exact List.mem_cons_self _ _
      · rw [if_neg hcr] at hr
        exact List.mem_cons_of_mem _ (h r hr)
  | deleteRoom d =>
      simp only [stepG, applyEvent] at hr ⊢
      rw [List.mem_filter]
      refine ⟨?_, by simpa using hr⟩
      exact h r (delete_room_noNewEmpty acc.1 d r hr)

theorem runG_inv (evs : List Event) : pristineInv (runG evs) := by
  have hfold : ∀ acc, pristineInv acc →
      pristineInv (evs.foldl stepG acc) := by
    induction evs with
    | nil => intro acc h; exact h
    | cons e tl ih =>
        intro acc h
        exact ih _ (stepG_inv acc e h)
  refine hfold (initState, []) ?_
  intro r hr
  simp [emptyHere, initState, dictGet] at hr

/-- Claim C5: in every reachable state, a room that is present with an empty
participant list is one explicitly created by the creation endpoint and not
joined since (the instrumented component of `runG` tracks exactly those
rooms).  The converse direction of the claim's "if and only if" — a room with
a non-empty participant list is present — holds by construction, since a
participant list exists only as a field of a room record in `active_rooms`. -/
theorem room_presence_invariant (evs : List Event) (r : String)
    (room : CallRoom)
    (hroom : dictGet (runG evs).1.active_rooms r = some room)
    (hemp : room.participants = []) :
    r ∈ (runG evs).2 := by
  refine runG_inv evs r ?_
  simp [emptyHere, hroom, hemp]

/-- Witness for `room_presence_invariant`: after a single create-room call,
room "a" is present and empty, and is tracked as created-but-never-joined. -/
theorem room_presence_invariant_witness :
    "a" ∈ (runG [Event.createRoom "a"]).2 :=
  room_presence_invariant [Event.createRoom "a"] "a" ⟨"a", 0, []⟩ rfl rfl
